import Mathlib

/-!
# A shallow embedding of the `lmc` Little Minion Computer (Rust) in Lean 4

This file models the core of the `lmc` repository:

* `src/numbers.rs` — the bounded decimal number types `ThreeDigitNumber`
  (values 0–999, `i16`-backed) and `TwoDigitNumber` (values 0–99,
  `u8`-backed), with their wraparound arithmetic and transient
  `NEG`/`OVERFLOW` flags;
* `src/assembler.rs` — the two-pass assembler from mnemonic source lines to
  machine words;
* `src/lmc.rs` — the fetch-decode-execute virtual machine.

Conventions of the embedding:

* Rust `i16` values are modelled as `Int`; `u8` and `usize` values as `Nat`.
  Rust's `as usize` cast of an `i16` is the two's-complement reinterpretation
  into 64 bits, modelled by `usizeOfI16`.  Rust's truncating `/` and `%` on
  `i16` are `Int.tdiv` and `Int.tmod`; `rem_euclid` is `Int.emod`.
* Fallible Rust functions returning `Result` are modelled with `Except`.
  A Rust `panic` (from `.unwrap()` on an error, or an out-of-bounds array
  index) is modelled explicitly: helpers return `Option` (`none` = panic)
  and the assembler/VM surface results have a dedicated panic outcome.
* The VM's `execute_program` loop is modelled with explicit fuel; running
  out of fuel is a distinct `running` outcome (the real loop would simply
  continue), so theorems can speak about what happens at each cycle count.
* Console logging and `show_output` printing have no effect on machine
  state and are omitted; the logger's configuration fields are kept so that
  theorems can state that results do not depend on them.
-/

namespace Lmc

/-- `Flag` from src/numbers.rs: state of the last arithmetic operation. -/
inductive Flag where
  | NEG
  | OVERFLOW
deriving DecidableEq, Repr

/-- `NumberError` from src/numbers.rs.  The payload is a Rust `usize`. -/
inductive NumberError where
  | OutOfBounds (value : Nat)
deriving DecidableEq, Repr

/-- Rust's `v as usize` for `v : i16` on a 64-bit target: two's-complement
reinterpretation of `v` as an unsigned 64-bit integer (`%` on `Int` is the
Euclidean remainder `Int.emod`). -/
def usizeOfI16 (v : Int) : Nat := (v % 2 ^ 64).toNat

/-- `ThreeDigitNumber` from src/numbers.rs: an `i16` value together with an
optional flag.  The Rust constructors enforce `0 ≤ value ≤ 999`; the
structure itself is unconstrained, as in Rust, where only the constructors
are public. -/
structure ThreeDigitNumber where
  value : Int
  flag : Option Flag
deriving DecidableEq, Repr

namespace ThreeDigitNumber

/-- `ThreeDigitNumber::new` (src/numbers.rs lines 43–49). -/
def new (value : Int) : Except NumberError ThreeDigitNumber :=
  if 0 ≤ value ∧ value ≤ 999 then
    .ok ⟨value, none⟩
  else
    .error (.OutOfBounds (usizeOfI16 value))

/-- `ThreeDigitNumber::new_with_flag` (src/numbers.rs lines 51–57). -/
def new_with_flag (value : Int) (flag : Option Flag) :
    Except NumberError ThreeDigitNumber :=
  if 0 ≤ value ∧ value ≤ 999 then
    .ok ⟨value, flag⟩
  else
    .error (.OutOfBounds (usizeOfI16 value))

/-- `impl Add for ThreeDigitNumber` (src/numbers.rs lines 69–79). -/
def add (a b : ThreeDigitNumber) : Except NumberError ThreeDigitNumber :=
  let sum := a.value + b.value
  if sum > 999 then
    new_with_flag (sum - 1000) (some .OVERFLOW)
  else
    new sum

/-- `impl Sub for ThreeDigitNumber` (src/numbers.rs lines 90–100);
`diff.rem_euclid(1000)` is the Euclidean remainder `diff % 1000`. -/
def sub (a b : ThreeDigitNumber) : Except NumberError ThreeDigitNumber :=
  let diff := a.value - b.value
  if diff < 0 then
    new_with_flag (diff % 1000) (some .NEG)
  else
    new diff

end ThreeDigitNumber

/-- `TwoDigitNumber` from src/numbers.rs: a `u8` value together with an
optional flag. -/
structure TwoDigitNumber where
  value : Nat
  flag : Option Flag
deriving DecidableEq, Repr

namespace TwoDigitNumber

/-- `TwoDigitNumber::new` (src/numbers.rs lines 122–128). -/
def new (value : Nat) : Except NumberError TwoDigitNumber :=
  if value ≤ 99 then .ok ⟨value, none⟩ else .error (.OutOfBounds value)

/-- `TwoDigitNumber::new_with_flag` (src/numbers.rs lines 130–136). -/
def new_with_flag (value : Nat) (flag : Option Flag) :
    Except NumberError TwoDigitNumber :=
  if value ≤ 99 then .ok ⟨value, flag⟩ else .error (.OutOfBounds value)

/-- `impl Add for TwoDigitNumber` (src/numbers.rs lines 144–154). -/
def add (a b : TwoDigitNumber) : Except NumberError TwoDigitNumber :=
  let sum := a.value + b.value
  if sum > 99 then
    new_with_flag (sum % 100) (some .OVERFLOW)
  else
    new sum

end TwoDigitNumber

/-- Rust `.unwrap()` viewed as a partial operation: `none` means the Rust
program panics. -/
def unwrapPanic : Except ε α → Option α
  | .ok a => some a
  | .error _ => none

/-! ## String helpers

Executable models of the string operations the assembler uses.  Lean's
built-in `String.trim`/`String.split` do not reduce in the kernel, so the
same operations are defined here by structural recursion on the character
list. -/

/-- The regex `#.*$` applied with `replace_all(line, "")` on a single line:
everything from the first `#` to the end of the line is removed
(src/assembler.rs line 123). -/
def stripComment (s : String) : String :=
  String.mk (s.data.takeWhile (fun c => c ≠ '#'))

/-- Rust `str::trim`: remove leading and trailing whitespace. -/
def rustTrim (s : String) : String :=
  String.mk
    (((s.data.dropWhile Char.isWhitespace).reverse.dropWhile
      Char.isWhitespace).reverse)

/-- Helper for `splitWhitespace`: `acc` holds the current word reversed. -/
def splitWsAux : List Char → List Char → List String
  | [], acc => if acc.isEmpty then [] else [String.mk acc.reverse]
  | c :: rest, acc =>
      if c.isWhitespace then
        if acc.isEmpty then splitWsAux rest []
        else String.mk acc.reverse :: splitWsAux rest []
      else splitWsAux rest (c :: acc)

/-- Rust `str::split_whitespace`: split on whitespace runs, no empty
tokens. -/
def splitWhitespace (s : String) : List String := splitWsAux s.data []

/-- Rust `str::parse::<i16>()`: optional sign, one or more ASCII digits,
value must fit in `i16`; `none` models `Err(ParseIntError)`. -/
def parseI16 (s : String) : Option Int :=
  let signed : Int × List Char :=
    match s.data with
    | '+' :: rest => (1, rest)
    | '-' :: rest => (-1, rest)
    | other => (1, other)
  let sign := signed.1
  let digits := signed.2
  if digits.isEmpty then none
  else if digits.all Char.isDigit then
    let n : Nat := digits.foldl (fun acc c => acc * 10 + (c.toNat - '0'.toNat)) 0
    let v : Int := sign * (n : Int)
    if -32768 ≤ v ∧ v ≤ 32767 then some v else none
  else none

/-! ## The assembler (src/assembler.rs) -/

/-- `AssemblerError` from src/assembler.rs lines 10–16. -/
inductive AssemblerError where
  | InvalidOpcode (opcode : String)
  | InvalidLabel (label : String)
  | InvalidNumberOfMneumonics (index : Nat) (line : String)
  | EmptyInput
  | TooManyLinesOfInput (lines : Nat)
deriving DecidableEq, Repr

/-- `OPCODES` from src/assembler.rs lines 42–54. -/
inductive OPCODES where
  | ADD
  | SUB
  | STO
  | LDA
  | BR
  | BRZ
  | BRP
  | IN
  | OUT
  | HLT
  | DAT
deriving DecidableEq, Repr

namespace OPCODES

/-- `OPCODES::to_number` (src/assembler.rs lines 58–72).  Each arm of the
Rust code is `ThreeDigitNumber::new(k).unwrap()` for a literal `k` in
range, which reduces to the flagless number `k`. -/
def to_number : OPCODES → ThreeDigitNumber
  | .ADD => ⟨100, none⟩
  | .SUB => ⟨200, none⟩
  | .STO => ⟨300, none⟩
  | .LDA => ⟨500, none⟩
  | .BR => ⟨600, none⟩
  | .BRZ => ⟨700, none⟩
  | .BRP => ⟨800, none⟩
  | .IN => ⟨901, none⟩
  | .OUT => ⟨902, none⟩
  | .HLT => ⟨0, none⟩
  | .DAT => ⟨0, none⟩

/-- `OPCODES::from_str` (src/assembler.rs lines 75–90). -/
def from_str (opcode : String) : Except AssemblerError OPCODES :=
  if opcode = "ADD" then .ok .ADD
  else if opcode = "SUB" then .ok .SUB
  else if opcode = "STO" then .ok .STO
  else if opcode = "LDA" then .ok .LDA
  else if opcode = "BR" then .ok .BR
  else if opcode = "BRZ" then .ok .BRZ
  else if opcode = "BRP" then .ok .BRP
  else if opcode = "IN" then .ok .IN
  else if opcode = "OUT" then .ok .OUT
  else if opcode = "HLT" then .ok .HLT
  else if opcode = "DAT" then .ok .DAT
  else .error (.InvalidOpcode opcode)

end OPCODES

/-- The label table: `HashMap<String, usize>` used only through `insert`
(overwrite) and `get`; modelled as an association list where the newest
binding for a key shadows older ones. -/
def labelsInsert (labels : List (String × Nat)) (key : String) (val : Nat) :
    List (String × Nat) :=
  (key, val) :: labels

/-- `HashMap::get` on the label table. -/
def labelsGet (labels : List (String × Nat)) (key : String) : Option Nat :=
  (labels.find? (fun p => p.1 = key)).map (fun p => p.2)

/-- Pass 1 of `Assembler::assemble` (src/assembler.rs lines 137–184):
collect labels, erroring on bad mnemonics in label-first 2-token lines and
on lines with more than 3 tokens. -/
def firstPass (labels : List (String × Nat)) (i : Nat) :
    List String → Except AssemblerError (List (String × Nat))
  | [] => .ok labels
  | line :: rest =>
    let parts := splitWhitespace line
    match parts with
    | [_] => firstPass labels (i + 1) rest
    | [p0, p1] =>
      match OPCODES.from_str p0 with
      | .ok _ => firstPass labels (i + 1) rest
      | .error _ =>
        match OPCODES.from_str p1 with
        | .ok _ => firstPass (labelsInsert labels p0 i) (i + 1) rest
        | .error e => .error e
    | [p0, _, _] => firstPass (labelsInsert labels p0 i) (i + 1) rest
    | _ => .error (.InvalidNumberOfMneumonics parts.length line)

/-- Pass 2 of `Assembler::assemble` (src/assembler.rs lines 186–277):
encode each line into a machine word.  `none` models a Rust panic, which
happens on `parts[2].parse::<i16>().unwrap()` for a non-numeric DAT operand
and on `ThreeDigitNumber::new(..).unwrap()` for an out-of-range one.  The
accumulator `acc` holds the emitted words in reverse. -/
def secondPass (labels : List (String × Nat)) (i : Nat)
    (acc : List ThreeDigitNumber) :
    List String → Option (Except AssemblerError (List ThreeDigitNumber))
  | [] => some (.ok acc.reverse)
  | line :: rest =>
    let parts := splitWhitespace line
    match parts with
    | [p0] =>
      match OPCODES.from_str p0 with
      | .error e => some (.error e)
      | .ok op => secondPass labels (i + 1) (op.to_number :: acc) rest
    | [p0, p1] =>
      match OPCODES.from_str p0 with
      | .ok _ =>
        match OPCODES.from_str p0 with
        | .error e => some (.error e)
        | .ok op =>
          match labelsGet labels p1 with
          | none => some (.error (.InvalidLabel p1))
          | some idx =>
            match unwrapPanic (ThreeDigitNumber.new (idx : Int)) with
            | none => none
            | some value =>
              match unwrapPanic (op.to_number.add value) with
              | none => none
              | some instruction =>
                secondPass labels (i + 1) (instruction :: acc) rest
      | .error _ =>
        match OPCODES.from_str p1 with
        | .ok op => secondPass labels (i + 1) (op.to_number :: acc) rest
        | .error e => some (.error e)
    | [_, p1, p2] =>
      match OPCODES.from_str p1 with
      | .error e => some (.error e)
      | .ok op =>
        match op with
        | .DAT =>
          match parseI16 p2 with
          | none => none
          | some v =>
            match unwrapPanic (ThreeDigitNumber.new v) with
            | none => none
            | some value => secondPass labels (i + 1) (value :: acc) rest
        | _ =>
          match labelsGet labels p2 with
          | none => some (.error (.InvalidLabel p2))
          | some idx =>
            match unwrapPanic (ThreeDigitNumber.new (idx : Int)) with
            | none => none
            | some value =>
              match unwrapPanic (op.to_number.add value) with
              | none => none
              | some instruction =>
                secondPass labels (i + 1) (instruction :: acc) rest
    | _ => secondPass labels (i + 1) (⟨0, none⟩ :: acc) rest

/-- The `Logger` configuration (src/logger.rs): it only controls console
printing and carries no other state. -/
structure Logger where
  verbose : Bool
  debug : Bool
deriving DecidableEq, Repr

/-- `Assembler` from src/assembler.rs lines 94–97. -/
structure Assembler where
  logger : Logger
deriving DecidableEq, Repr

namespace Assembler

/-- `Assembler::new` (src/assembler.rs lines 101–105). -/
def new (verbose debug : Bool) : Assembler := ⟨⟨verbose, debug⟩⟩

/-- `Assembler::assemble` (src/assembler.rs lines 109–280).  `none` models
a Rust panic inside the second pass. -/
def assemble (_a : Assembler) (input : List String) :
    Option (Except AssemblerError (List ThreeDigitNumber)) :=
  let stripped :=
    (input.map (fun line => rustTrim (stripComment line))).filter
      (fun line => 0 < line.data.length)
  if stripped.length = 0 then some (.error .EmptyInput)
  else if stripped.length > 100 then
    some (.error (.TooManyLinesOfInput stripped.length))
  else
    match firstPass [] 0 stripped with
    | .error e => some (.error e)
    | .ok labels => secondPass labels 0 [] stripped

/-- A call `a.assemble(&mut input)` through a `&self` receiver: the method
cannot replace the assembler value, so the post-call assembler is `a`
itself.  Returned as an explicit pair so that theorems can speak about the
state after the call. -/
def assembleCall (a : Assembler) (input : List String) :
    Option (Except AssemblerError (List ThreeDigitNumber)) × Assembler :=
  (a.assemble input, a)

end Assembler

/-! ## The virtual machine (src/lmc.rs) -/

/-- `LMCError` from src/lmc.rs lines 14–20. -/
inductive LMCError where
  | NumberError (e : NumberError)
  | ProgramTooLarge (n : Nat)
  | IOError (msg : String)
  | InvalidOpcode (opcode : String)
  | MaxCyclesHit (n : Nat)
deriving DecidableEq, Repr

/-- Zero-padded decimal formatting, Rust's `{:02}`/`{:03}` on an `i16`
(the sign, when present, counts toward the width). -/
def fmtPad (width : Nat) (v : Int) : String :=
  let digits := toString v.natAbs
  let pad (w : Nat) (s : String) : String :=
    String.mk (List.replicate (w - s.length) '0') ++ s
  if v < 0 then "-" ++ pad (width - 1) digits else pad width digits

/-- The machine state, `LMC` from src/lmc.rs lines 48–70.  The 100-cell
`mailboxes` array is modelled as a total map from indices; all accesses the
Rust code performs go through `boxRead`/`boxWrite`, which fail (panic)
outside 0–99 exactly as Rust array indexing does.  `stdin_lines` models the
external stdin collaborator consumed by blocking reads: it is not a field
of the Rust struct, and an empty list means no input is available, i.e. a
blocking read would block forever. -/
structure LMC where
  mailboxes : Nat → ThreeDigitNumber
  calculator : ThreeDigitNumber
  in_basket : List ThreeDigitNumber
  out_basket : Option ThreeDigitNumber
  counter : TwoDigitNumber
  flag : Option Flag
  logger : Logger
  quiet : Bool
  max_cycles : Nat
  stdin_lines : List String

/-- `self.mailboxes[i]`: Rust panics when `i ≥ 100`. -/
def boxRead (m : Nat → ThreeDigitNumber) (i : Nat) :
    Option ThreeDigitNumber :=
  if i < 100 then some (m i) else none

/-- `self.mailboxes[i] = v`: Rust panics when `i ≥ 100`. -/
def boxWrite (m : Nat → ThreeDigitNumber) (i : Nat) (v : ThreeDigitNumber) :
    Option (Nat → ThreeDigitNumber) :=
  if i < 100 then some (fun j => if j = i then v else m j) else none

/-- Outcome of one `&mut self` instruction method: `ok` is `Ok(())` with
the mutated state, `err` is `Err(e)`, `panicked` is a Rust panic, and
`blocked` is a blocking stdin read with no input ever arriving. -/
inductive MethodOut where
  | ok (st : LMC)
  | err (e : LMCError)
  | panicked
  | blocked

namespace LMC

/-- `LMC::new` (src/lmc.rs lines 74–86), with an empty external stdin. -/
def new (verbose debug quiet : Bool) (max_cycles : Nat) : LMC where
  mailboxes := fun _ => ⟨0, none⟩
  calculator := ⟨0, none⟩
  in_basket := []
  out_basket := none
  counter := ⟨0, none⟩
  flag := none
  logger := ⟨verbose, debug⟩
  quiet := quiet
  max_cycles := max_cycles
  stdin_lines := []

/-- `LMC::load_program` (src/lmc.rs lines 90–102).  Returns the `Result`
paired with the post-call state (the receiver is `&mut self`). -/
def load_program (st : LMC) (program : List ThreeDigitNumber) :
    Except LMCError Unit × LMC :=
  if program.length > 100 then
    (.error (.ProgramTooLarge program.length), st)
  else
    (.ok (),
      { st with
        mailboxes := fun i =>
          if h : i < program.length then program.get ⟨i, h⟩
          else st.mailboxes i })

/-- The shared counter-increment tail `self.counter += TwoDigitNumber::new(1)?`
of the instruction methods: `new(1)` cannot fail, and the `AddAssign`
unwraps the addition result (panicking on `Err`). -/
def incCounter (st : LMC) : MethodOut :=
  match TwoDigitNumber.new 1 with
  | .error e => .err (.NumberError e)
  | .ok one =>
    match unwrapPanic (st.counter.add one) with
    | none => .panicked
    | some c => .ok { st with counter := c }

/-- `LMC::add` (src/lmc.rs lines 188–216): `calculator += mailboxes[operand]`
(unwrapped), copy the result's flag into the machine flag, increment the
counter. -/
def add (st : LMC) (operand : Nat) : MethodOut :=
  match boxRead st.mailboxes operand with
  | none => .panicked
  | some value =>
    match unwrapPanic (st.calculator.add value) with
    | none => .panicked
    | some c =>
      incCounter { st with calculator := c, flag := c.flag }

/-- `LMC::sub` (src/lmc.rs lines 219–247). -/
def sub (st : LMC) (operand : Nat) : MethodOut :=
  match boxRead st.mailboxes operand with
  | none => .panicked
  | some value =>
    match unwrapPanic (st.calculator.sub value) with
    | none => .panicked
    | some c =>
      incCounter { st with calculator := c, flag := c.flag }

/-- `LMC::sto` (src/lmc.rs lines 250–264). -/
def sto (st : LMC) (operand : Nat) : MethodOut :=
  match boxWrite st.mailboxes operand st.calculator with
  | none => .panicked
  | some m => incCounter { st with mailboxes := m }

/-- `LMC::lda` (src/lmc.rs lines 267–282): loads the mailbox into the
calculator and clears the machine flag. -/
def lda (st : LMC) (operand : Nat) : MethodOut :=
  match boxRead st.mailboxes operand with
  | none => .panicked
  | some value => incCounter { st with calculator := value, flag := none }

/-- `LMC::br` (src/lmc.rs lines 285–291): `TwoDigitNumber::new(operand as u8)`
is unwrapped, so an out-of-range operand panics.  The method returns `()`;
`none` models the panic. -/
def br (st : LMC) (operand : Nat) : Option LMC :=
  match unwrapPanic (TwoDigitNumber.new (operand % 256)) with
  | none => none
  | some c => some { st with counter := c }

/-- `LMC::brz` (src/lmc.rs lines 295–313). -/
def brz (st : LMC) (operand : Nat) : MethodOut :=
  if st.calculator.value = 0 then
    match unwrapPanic (TwoDigitNumber.new (operand % 256)) with
    | none => .panicked
    | some c => .ok { st with counter := c }
  else incCounter st

/-- `LMC::brp` (src/lmc.rs lines 317–359): fall through only on `NEG`;
on any other flag, or no flag, set the counter to the operand (here the
constructor failure is propagated as an error, not unwrapped). -/
def brp (st : LMC) (operand : Nat) : MethodOut :=
  match st.flag with
  | some Flag.NEG => incCounter st
  | some _ =>
    match TwoDigitNumber.new (operand % 256) with
    | .error e => .err (.NumberError e)
    | .ok c => .ok { st with counter := c }
  | none =>
    match TwoDigitNumber.new (operand % 256) with
    | .error e => .err (.NumberError e)
    | .ok c => .ok { st with counter := c }

/-- `LMC::read_blocking` (src/lmc.rs lines 381–400) against the modelled
stdin: consume the next line, trim it, parse it as `i16`, validate it into
a `ThreeDigitNumber`.  `none` means stdin never delivers a line (the Rust
call blocks forever). -/
def read_blocking (st : LMC) :
    Option (Except LMCError ThreeDigitNumber × LMC) :=
  match st.stdin_lines with
  | [] => none
  | line :: rest =>
    let st := { st with stdin_lines := rest }
    match parseI16 (rustTrim line) with
    | none => some (.error (.IOError "invalid digit found in string"), st)
    | some n =>
      match ThreeDigitNumber.new n with
      | .ok number => some (.ok number, st)
      | .error e => some (.error (.NumberError e), st)

/-- `LMC::read_input` (src/lmc.rs lines 364–377): pop the in-basket, or
fall back to a blocking stdin read. -/
def read_input (st : LMC) : MethodOut :=
  match st.in_basket with
  | number :: rest =>
    incCounter { st with calculator := number, in_basket := rest }
  | [] =>
    match st.read_blocking with
    | none => .blocked
    | some (.error e, _) => .err e
    | some (.ok number, st') =>
      incCounter { st' with calculator := number }

/-- `LMC::write_output` (src/lmc.rs lines 403–410). -/
def write_output (st : LMC) : MethodOut :=
  incCounter { st with out_basket := some st.calculator }

end LMC

/-- Outcome of one iteration of the fetch-execute loop body (after the
cycle check): `halt` is the `return Ok(())` of opcode 0, `next` continues
the loop, the rest are as in `MethodOut`. -/
inductive StepResult where
  | halt (st : LMC)
  | next (st : LMC)
  | err (e : LMCError)
  | panicked
  | blocked

/-- Lift a `MethodOut` into the loop: `Ok(())` means the loop continues. -/
def stepOfMethod : MethodOut → StepResult
  | .ok st => .next st
  | .err e => .err e
  | .panicked => .panicked
  | .blocked => .blocked

namespace LMC

/-- The fetch-decode-dispatch body of `LMC::execute_program`
(src/lmc.rs lines 119–183): fetch `mailboxes[counter]`, split it into
`opcode = value / 100` and `operand = (value % 100) as usize` with Rust's
truncating `i16` division, and dispatch. -/
def fetchExec (st : LMC) : StepResult :=
  match boxRead st.mailboxes st.counter.value with
  | none => .panicked
  | some instruction =>
    let opcode : Int := Int.tdiv instruction.value 100
    let operand : Nat := usizeOfI16 (Int.tmod instruction.value 100)
    if opcode = 1 then stepOfMethod (st.add operand)
    else if opcode = 2 then stepOfMethod (st.sub operand)
    else if opcode = 3 then stepOfMethod (st.sto operand)
    else if opcode = 5 then stepOfMethod (st.lda operand)
    else if opcode = 6 then
      match st.br operand with
      | none => .panicked
      | some st' => .next st'
    else if opcode = 7 then stepOfMethod (st.brz operand)
    else if opcode = 8 then stepOfMethod (st.brp operand)
    else if opcode = 9 then
      if operand = 1 then stepOfMethod st.read_input
      else if operand = 2 then stepOfMethod st.write_output
      else .err (.InvalidOpcode ("9" ++ fmtPad 2 opcode))
    else if opcode = 0 then .halt st
    else .err (.InvalidOpcode (fmtPad 3 opcode))

end LMC

/-- Result of running the fetch-execute loop with a given amount of fuel:
`running` means the fuel ran out with the loop still going (the Rust loop
would simply continue), carrying the state and cycle count reached. -/
inductive ExecResult where
  | ok (st : LMC)
  | err (e : LMCError)
  | panicked
  | blocked
  | running (st : LMC) (cycles : Nat)

namespace LMC

/-- The loop of `LMC::execute_program` (src/lmc.rs lines 112–184): each
iteration first increments the cycle count, fails with `MaxCyclesHit` as
soon as it equals `max_cycles`, and only then fetches and executes. -/
def execLoop : Nat → LMC → Nat → ExecResult
  | 0, st, cycles => .running st cycles
  | fuel + 1, st, cycles =>
    let cycles' := cycles + 1
    if st.max_cycles = cycles' then .err (.MaxCyclesHit st.max_cycles)
    else
      match st.fetchExec with
      | .halt st' => .ok st'
      | .next st' => execLoop fuel st' cycles'
      | .err e => .err e
      | .panicked => .panicked
      | .blocked => .blocked

/-- `LMC::execute_program` (src/lmc.rs lines 108–185), fuel-indexed. -/
def execute_program (st : LMC) (fuel : Nat) : ExecResult :=
  execLoop fuel st 0

end LMC

/-- The range invariant the Rust constructors enforce on every
`ThreeDigitNumber` they produce. -/
def TDNwf (n : ThreeDigitNumber) : Prop := 0 ≤ n.value ∧ n.value ≤ 999

/-- The machine-state invariant: every reachable `LMC` value satisfies it,
because all its `ThreeDigitNumber`/`TwoDigitNumber` components are built by
the validating constructors. -/
def LMCwf (st : LMC) : Prop :=
  (∀ i, i < 100 → TDNwf (st.mailboxes i)) ∧
  TDNwf st.calculator ∧
  st.counter.value ≤ 99 ∧
  (∀ n ∈ st.in_basket, TDNwf n)

/-- Safety of one loop-body outcome: it is not a panic, and any state it
continues or halts with is well-formed. -/
def StepSafe (r : StepResult) : Prop :=
  r ≠ .panicked ∧ (∀ st', r = .next st' → LMCwf st') ∧
  (∀ st', r = .halt st' → LMCwf st')

/-! ## Theorems -/

/-- Two-digit addition never fails: the result value is the sum modulo
100, which is always back in range, and the flag records overflow. -/
theorem TwoDigitNumber.add_wrap_eq (a b : TwoDigitNumber) :
    a.add b = .ok ⟨(a.value + b.value) % 100,
      if 99 < a.value + b.value then some Flag.OVERFLOW else none⟩ := by
  unfold TwoDigitNumber.add TwoDigitNumber.new TwoDigitNumber.new_with_flag
  by_cases h : 99 < a.value + b.value
  · rw [if_pos (show a.value + b.value > 99 from h),
      if_pos (show (a.value + b.value) % 100 ≤ 99 by omega), if_pos h]
  · rw [if_neg (show ¬a.value + b.value > 99 from h),
      if_pos (show a.value + b.value ≤ 99 by omega), if_neg h,
      Nat.mod_eq_of_lt (by omega)]

/-- The shared counter-increment tail `counter += 1` always succeeds and
touches only the counter, which advances by one modulo 100. -/
theorem LMC.incCounter_eq (st : LMC) :
    st.incCounter = .ok { st with counter :=
      ⟨(st.counter.value + 1) % 100,
        if 99 < st.counter.value + 1 then some Flag.OVERFLOW else none⟩ } := by
  unfold LMC.incCounter TwoDigitNumber.new
  rw [if_pos (show (1 : Nat) ≤ 99 by omega)]
  simp only [TwoDigitNumber.add_wrap_eq, unwrapPanic]

/-- Three-digit addition of two in-range numbers never fails; the result is
the sum modulo 1000, flagged `OVERFLOW` exactly when the sum left the
range. -/
theorem ThreeDigitNumber.add_eq (a b : ThreeDigitNumber)
    (ha : TDNwf a) (hb : TDNwf b) :
    a.add b = .ok ⟨(a.value + b.value) % 1000,
      if 999 < a.value + b.value then some Flag.OVERFLOW else none⟩ := by
  obtain ⟨ha0, ha9⟩ := ha
  obtain ⟨hb0, hb9⟩ := hb
  unfold ThreeDigitNumber.add ThreeDigitNumber.new ThreeDigitNumber.new_with_flag
  by_cases h : 999 < a.value + b.value
  · rw [if_pos (show a.value + b.value > 999 from h), if_pos (by omega), if_pos h]
    simp only [Except.ok.injEq, ThreeDigitNumber.mk.injEq]
    exact ⟨by omega, trivial⟩
  · rw [if_neg (show ¬a.value + b.value > 999 from h), if_pos (by omega), if_neg h]
    simp only [Except.ok.injEq, ThreeDigitNumber.mk.injEq]
    exact ⟨by omega, trivial⟩

/-- Three-digit subtraction of two in-range numbers never fails; the result
is the difference modulo 1000 (always non-negative), flagged `NEG` exactly
when the difference was negative. -/
theorem ThreeDigitNumber.sub_eq (a b : ThreeDigitNumber)
    (ha : TDNwf a) (hb : TDNwf b) :
    a.sub b = .ok ⟨(a.value - b.value) % 1000,
      if a.value < b.value then some Flag.NEG else none⟩ := by
  obtain ⟨ha0, ha9⟩ := ha
  obtain ⟨hb0, hb9⟩ := hb
  unfold ThreeDigitNumber.sub ThreeDigitNumber.new ThreeDigitNumber.new_with_flag
  by_cases h : a.value < b.value
  · rw [if_pos (show a.value - b.value < 0 by omega), if_pos (by omega), if_pos h]
  · rw [if_neg (show ¬a.value - b.value < 0 by omega), if_pos (by omega), if_neg h]
    simp only [Except.ok.injEq, ThreeDigitNumber.mk.injEq]
    exact ⟨by omega, trivial⟩

/-- C1 counterexample: constructing a `ThreeDigitNumber` from `-1` fails
with `OutOfBounds (2^64 - 1)` — the payload is the `usize` reinterpretation
of `-1`, not the offending value `-1` itself, so the error does not report
`v` when `v` is negative. -/
theorem c1_counterexample :
    ThreeDigitNumber.new (-1) = .error (.OutOfBounds (2 ^ 64 - 1)) ∧
    ((2 ^ 64 - 1 : Nat) : Int) ≠ (-1 : Int) := by
  constructor
  · rfl
  · decide

/-- C1 (amended): for every `i16` value `v` in `[0,999]`, construction
succeeds with value `v` and no flag; outside the range it fails with an
`OutOfBounds` error whose payload is `v` reinterpreted as a `usize` — the
value `v` itself when `v > 999`, but `v + 2^64` when `v` is negative. -/
theorem c1_new_bounds (v : Int) (hlo : -32768 ≤ v) (hhi : v ≤ 32767) :
    (0 ≤ v ∧ v ≤ 999 → ThreeDigitNumber.new v = .ok ⟨v, none⟩) ∧
    (999 < v → ThreeDigitNumber.new v = .error (.OutOfBounds v.toNat)) ∧
    (v < 0 →
      ThreeDigitNumber.new v =
        .error (.OutOfBounds (v + 2 ^ 64).toNat)) := by
  refine ⟨fun h => ?_, fun h => ?_, fun h => ?_⟩
  · rw [ThreeDigitNumber.new, if_pos h]
  · rw [ThreeDigitNumber.new, if_neg (by omega)]
    have hu : usizeOfI16 v = v.toNat := by
      unfold usizeOfI16
      omega
    rw [hu]
  · rw [ThreeDigitNumber.new, if_neg (by omega)]
    have hu : usizeOfI16 v = (v + 2 ^ 64).toNat := by
      unfold usizeOfI16
      omega
    rw [hu]

/-- C1 witness: the amended theorem applied at `v = -1`. -/
theorem c1_witness :
    ThreeDigitNumber.new (-1) =
      .error (.OutOfBounds ((-1 + 2 ^ 64 : Int).toNat)) := by
  have h := c1_new_bounds (-1) (by decide) (by decide)
  exact h.2.2 (by decide)

/-- C2: for all `a`, `b` in `[0,999]` (whatever transient flags the inputs
carry), three-digit addition yields `(a+b) mod 1000` with flag `OVERFLOW`
present exactly when `a+b > 999`, and three-digit subtraction yields
`(a−b) mod 1000`, always non-negative, with flag `NEG` present exactly when
`a < b`. -/
theorem c2_add_sub (a b : Int) (fa fb : Option Flag)
    (ha0 : 0 ≤ a) (ha9 : a ≤ 999) (hb0 : 0 ≤ b) (hb9 : b ≤ 999) :
    ThreeDigitNumber.add ⟨a, fa⟩ ⟨b, fb⟩ =
      .ok ⟨(a + b) % 1000,
        if 999 < a + b then some Flag.OVERFLOW else none⟩ ∧
    ThreeDigitNumber.sub ⟨a, fa⟩ ⟨b, fb⟩ =
      .ok ⟨(a - b) % 1000,
        if a < b then some Flag.NEG else none⟩ ∧
    0 ≤ (a - b) % 1000 := by
  refine ⟨?_, ?_, by omega⟩
  · exact ThreeDigitNumber.add_eq ⟨a, fa⟩ ⟨b, fb⟩ ⟨ha0, ha9⟩ ⟨hb0, hb9⟩
  · exact ThreeDigitNumber.sub_eq ⟨a, fa⟩ ⟨b, fb⟩ ⟨ha0, ha9⟩ ⟨hb0, hb9⟩

/-- C2 witness: the theorem applied at `a = 600, b = 700` — addition wraps
to `300` with `OVERFLOW`, subtraction wraps to `900` with `NEG`. -/
theorem c2_witness :
    ThreeDigitNumber.add ⟨600, none⟩ ⟨700, none⟩ =
      .ok ⟨300, some Flag.OVERFLOW⟩ ∧
    ThreeDigitNumber.sub ⟨600, none⟩ ⟨700, none⟩ =
      .ok ⟨900, some Flag.NEG⟩ := by
  have h := c2_add_sub 600 700 none none (by decide) (by decide)
    (by decide) (by decide)
  refine ⟨?_, ?_⟩
  · rw [h.1]
    rfl
  · rw [h.2.1]
    rfl

/-- C3: for all `a`, `b` in `[0,99]`, two-digit addition yields
`(a+b) mod 100` with flag `OVERFLOW` present exactly when `a+b > 99`; as a
consequence, when the program counter is 99 and an instruction (here ADD)
increments it, the instruction still succeeds — no halt, no error — with
the counter wrapped to 0, so the next fetch of the loop reads mailbox 0. -/
theorem c3_counter_wraparound :
    (∀ (a b : Nat) (fa fb : Option Flag), a ≤ 99 → b ≤ 99 →
      TwoDigitNumber.add ⟨a, fa⟩ ⟨b, fb⟩ =
        .ok ⟨(a + b) % 100,
          if 99 < a + b then some Flag.OVERFLOW else none⟩) ∧
    (∀ (st : LMC) (operand : Nat) (fc : Option Flag),
      st.counter = ⟨99, fc⟩ → operand ≤ 99 →
      TDNwf st.calculator → TDNwf (st.mailboxes operand) →
      ∃ st', st.add operand = .ok st' ∧ st'.counter.value = 0 ∧
        boxRead st'.mailboxes st'.counter.value = some (st'.mailboxes 0)) := by
  constructor
  · intro a b fa fb _ _
    exact TwoDigitNumber.add_wrap_eq ⟨a, fa⟩ ⟨b, fb⟩
  · intro st operand fc hc hop hcalc hbox
    have hread : boxRead st.mailboxes operand = some (st.mailboxes operand) := by
      unfold boxRead
      rw [if_pos (by omega)]
    have hadd := ThreeDigitNumber.add_eq st.calculator (st.mailboxes operand)
      hcalc hbox
    unfold LMC.add
    simp only [hread, hadd, unwrapPanic, LMC.incCounter_eq, hc]
    exact ⟨_, rfl, rfl, rfl⟩

/-- C3 witness: the two-digit addition `99 + 1` wraps to `0` with
`OVERFLOW`, and on a machine whose counter is 99 and whose every mailbox
holds `001`, the ADD instruction wraps the counter to 0. -/
theorem c3_witness :
    TwoDigitNumber.add ⟨99, none⟩ ⟨1, none⟩ =
      .ok ⟨0, some Flag.OVERFLOW⟩ ∧
    ∃ st', LMC.add { LMC.new false false false 0 with
        mailboxes := fun _ => ⟨1, none⟩, counter := ⟨99, none⟩ } 5 =
          .ok st' ∧ st'.counter.value = 0 := by
  constructor
  · have h := c3_counter_wraparound.1 99 1 none none (by decide) (by decide)
    rw [h]
    rfl
  · obtain ⟨st', h1, h2, -⟩ := c3_counter_wraparound.2
      { LMC.new false false false 0 with
        mailboxes := fun _ => ⟨1, none⟩, counter := ⟨99, none⟩ } 5 none rfl
      (by decide) (by constructor <;> decide) (by constructor <;> decide)
    exact ⟨st', h1, h2⟩

/-- The closed form of `LMC::brp`: for an in-range operand it always
succeeds, touching only the counter; if the flag is `NEG` the counter
advances by one (modulo 100), otherwise — no flag, or any non-`NEG` flag —
the counter is set to the operand.  No other component of the state,
in particular not the calculator, influences the outcome. -/
theorem LMC.brp_eq (st : LMC) (operand : Nat) (hop : operand ≤ 99) :
    st.brp operand = .ok { st with counter :=
      if (st.flag = some Flag.NEG) then
        ⟨(st.counter.value + 1) % 100,
          if 99 < st.counter.value + 1 then some Flag.OVERFLOW else none⟩
      else ⟨operand, none⟩ } := by
  have hmod : operand % 256 = operand := Nat.mod_eq_of_lt (by omega)
  unfold LMC.brp TwoDigitNumber.new
  rcases hf : st.flag with - | f
  · rw [hmod, if_pos hop]
    simp [hf]
  · cases f
    · rw [LMC.incCounter_eq]
      simp [hf]
    · rw [hmod, if_pos hop]
      simp [hf]

/-- C4: BRP sets the counter to its operand whenever the flag is absent or
is `OVERFLOW` (in particular when the accumulator is 0 with no flag), and
only a `NEG` flag makes it fall through to `counter + 1`; the accumulator
is never consulted — replacing it by any value leaves the outcome, up to
that same replacement, unchanged. -/
theorem c4_brp_policy (st : LMC) (operand : Nat) (hop : operand ≤ 99) :
    (st.flag ≠ some Flag.NEG →
      st.brp operand = .ok { st with counter := ⟨operand, none⟩ }) ∧
    (st.flag = some Flag.NEG →
      st.brp operand = .ok { st with counter :=
        ⟨(st.counter.value + 1) % 100,
          if 99 < st.counter.value + 1 then some Flag.OVERFLOW else none⟩ }) ∧
    (∀ c : ThreeDigitNumber,
      LMC.brp { st with calculator := c } operand =
        .ok { st with calculator := c, counter :=
          if (st.flag = some Flag.NEG) then
            ⟨(st.counter.value + 1) % 100,
              if 99 < st.counter.value + 1 then some Flag.OVERFLOW else none⟩
          else ⟨operand, none⟩ }) := by
  refine ⟨fun h => ?_, fun h => ?_, fun c => ?_⟩
  · rw [LMC.brp_eq st operand hop, if_neg h]
  · rw [LMC.brp_eq st operand hop, if_pos h]
  · exact LMC.brp_eq { st with calculator := c } operand hop

/-- C4 witness: on a fresh machine (accumulator 0, no flag) BRP 42 jumps to
mailbox 42. -/
theorem c4_witness :
    LMC.brp (LMC.new false false false 0) 42 =
      .ok { LMC.new false false false 0 with counter := ⟨42, none⟩ } := by
  have h := (c4_brp_policy (LMC.new false false false 0) 42 (by decide)).1
  exact h (by decide)

/-- C8: loading a program of at most 100 words succeeds, copies the words
into mailboxes `0..len-1`, and changes nothing else — mailboxes at indices
`≥ len` keep their previous contents (no zero-fill), and the calculator,
counter, flag, and both baskets are untouched; a program of more than 100
words fails with `ProgramTooLarge(len)` and leaves the state unchanged. -/
theorem c8_load_program_frame (st : LMC) (program : List ThreeDigitNumber) :
    (program.length ≤ 100 →
      (st.load_program program).1 = .ok () ∧
      (∀ i (h : i < program.length),
        (st.load_program program).2.mailboxes i = program.get ⟨i, h⟩) ∧
      (∀ i, program.length ≤ i →
        (st.load_program program).2.mailboxes i = st.mailboxes i) ∧
      (st.load_program program).2.calculator = st.calculator ∧
      (st.load_program program).2.counter = st.counter ∧
      (st.load_program program).2.flag = st.flag ∧
      (st.load_program program).2.in_basket = st.in_basket ∧
      (st.load_program program).2.out_basket = st.out_basket) ∧
    (100 < program.length →
      st.load_program program =
        (.error (.ProgramTooLarge program.length), st)) := by
  constructor
  · intro hle
    unfold LMC.load_program
    rw [if_neg (by omega)]
    refine ⟨rfl, fun i h => ?_, fun i h => ?_, rfl, rfl, rfl, rfl, rfl⟩
    · exact dif_pos h
    · exact dif_neg (by omega)
  · intro hgt
    unfold LMC.load_program
    rw [if_pos (by omega)]

/-- C8 witness: loading the one-word program `[007]` into a fresh machine
puts `007` in mailbox 0 and leaves mailbox 55 at its previous `000`. -/
theorem c8_witness :
    ((LMC.new false false false 0).load_program [⟨7, none⟩]).1 = .ok () ∧
    ((LMC.new false false false 0).load_program [⟨7, none⟩]).2.mailboxes 0 =
      ⟨7, none⟩ ∧
    ((LMC.new false false false 0).load_program [⟨7, none⟩]).2.mailboxes 55 =
      ⟨0, none⟩ := by
  have h := (c8_load_program_frame (LMC.new false false false 0)
    [⟨7, none⟩]).1 (by decide)
  exact ⟨h.1, h.2.1 0 (by decide), (h.2.2.1 55 (by decide)).trans rfl⟩

/-- C9: the assembler is deterministic and stateless: a call through
`&self` leaves the assembler exactly as it was, and the result depends only
on the input lines — two assemblers (the same one twice, or two different
ones, whatever their logger configuration) produce identical results on
identical input. -/
theorem c9_assemble_deterministic (a1 a2 : Assembler) (input : List String) :
    (Assembler.assembleCall a1 input).1 = (Assembler.assembleCall a2 input).1 ∧
    (Assembler.assembleCall a1 input).2 = a1 ∧
    (Assembler.assembleCall a2 input).2 = a2 :=
  ⟨rfl, rfl, rfl⟩

/-- Unfolding equation for one iteration of the execute loop. -/
theorem LMC.execLoop_succ (fuel : Nat) (st : LMC) (cycles : Nat) :
    LMC.execLoop (fuel + 1) st cycles =
      if st.max_cycles = cycles + 1 then
        .err (.MaxCyclesHit st.max_cycles)
      else
        match st.fetchExec with
        | .halt st' => .ok st'
        | .next st' => LMC.execLoop fuel st' (cycles + 1)
        | .err e => .err e
        | .panicked => .panicked
        | .blocked => .blocked := rfl

/-- When the cycle budget is not yet hit and the body steps to `st'`, the
loop continues there. -/
theorem LMC.execLoop_next (fuel : Nat) (st st' : LMC) (cycles : Nat)
    (hstep : st.fetchExec = .next st') (hmax : st.max_cycles ≠ cycles + 1) :
    LMC.execLoop (fuel + 1) st cycles = LMC.execLoop fuel st' (cycles + 1) := by
  rw [LMC.execLoop_succ, if_neg hmax, hstep]

/-- When the cycle budget is not yet hit and the body halts, the loop
returns successfully. -/
theorem LMC.execLoop_halt (fuel : Nat) (st st' : LMC) (cycles : Nat)
    (hstep : st.fetchExec = .halt st') (hmax : st.max_cycles ≠ cycles + 1) :
    LMC.execLoop (fuel + 1) st cycles = .ok st' := by
  rw [LMC.execLoop_succ, if_neg hmax, hstep]

/-- The loaded one-word program `BR 0` is a fixed point of the loop body:
the branch resets the counter to 0, where it already is. -/
theorem LMC.br_self_loop_step (vb dbg qt : Bool) (mc : Nat) :
    (((LMC.new vb dbg qt mc).load_program [⟨600, none⟩]).2).fetchExec =
      .next (((LMC.new vb dbg qt mc).load_program [⟨600, none⟩]).2) := rfl

/-- On the `BR 0` machine with `max_cycles = N`, the loop run from cycle
count `cycles < N` with `fuel` more iterations either is still running
(when `cycles + fuel < N`) or has failed with `MaxCyclesHit N`. -/
theorem LMC.br_self_loop_run (vb dbg qt : Bool) (N : Nat) (fuel cycles : Nat)
    (hcy : cycles < N) :
    LMC.execLoop fuel (((LMC.new vb dbg qt N).load_program [⟨600, none⟩]).2)
        cycles =
      if cycles + fuel < N then
        .running (((LMC.new vb dbg qt N).load_program [⟨600, none⟩]).2)
          (cycles + fuel)
      else .err (.MaxCyclesHit N) := by
  induction fuel generalizing cycles with
  | zero =>
    rw [if_pos (by omega)]
    rfl
  | succ f ih =>
    by_cases hhit : N = cycles + 1
    · have hmx : (((LMC.new vb dbg qt N).load_program
          [⟨600, none⟩]).2).max_cycles = N := rfl
      rw [LMC.execLoop_succ, hmx, if_pos hhit, if_neg (by omega)]
    · rw [LMC.execLoop_next f _ _ cycles (LMC.br_self_loop_step vb dbg qt N)
        (by rw [show (((LMC.new vb dbg qt N).load_program
          [⟨600, none⟩]).2).max_cycles = N from rfl]; omega)]
      rw [ih (cycles + 1) (by omega)]
      by_cases hlt : cycles + (f + 1) < N
      · rw [if_pos (by omega), if_pos hlt,
          show cycles + 1 + f = cycles + (f + 1) by omega]
      · rw [if_neg (by omega), if_neg hlt]

/-- C5: executing the one-word program `[600]` (`BR 0`) on a fresh machine
configured with maximum cycle count `N ≥ 1` fails with `MaxCyclesHit N`
exactly when the internal cycle counter reaches `N`: with `N` loop
iterations of fuel the result is that error, while with any smaller fuel
`f` the loop is still running at cycle count `f` — never earlier, never
later, and `HLT` is never reached.  The check happens once per cycle,
before the instruction is decoded, as the `execLoop` equations record. -/
theorem c5_max_cycles_exact (vb dbg qt : Bool) (N : Nat) (hN : 1 ≤ N) :
    ((((LMC.new vb dbg qt N).load_program [⟨600, none⟩]).2).execute_program N =
      .err (.MaxCyclesHit N)) ∧
    (∀ fuel, fuel < N →
      (((LMC.new vb dbg qt N).load_program [⟨600, none⟩]).2).execute_program
          fuel =
        .running (((LMC.new vb dbg qt N).load_program [⟨600, none⟩]).2)
          fuel) := by
  constructor
  · rw [LMC.execute_program, LMC.br_self_loop_run vb dbg qt N N 0 (by omega),
      if_neg (by omega)]
  · intro fuel hf
    rw [LMC.execute_program, LMC.br_self_loop_run vb dbg qt N fuel 0 (by omega),
      if_pos (by omega)]
    rw [Nat.zero_add]

/-- C5 witness: with `N = 3`, the `BR 0` program fails with
`MaxCyclesHit 3` at fuel 3 and is still running at fuel 2. -/
theorem c5_witness :
    ((((LMC.new false false false 3).load_program
      [⟨600, none⟩]).2).execute_program 3 = .err (.MaxCyclesHit 3)) ∧
    ((((LMC.new false false false 3).load_program
      [⟨600, none⟩]).2).execute_program 2 =
        .running (((LMC.new false false false 3).load_program
          [⟨600, none⟩]).2) 2) := by
  have h := c5_max_cycles_exact false false false 3 (by decide)
  exact ⟨h.1, h.2 2 (by decide)⟩

/-- Second-pass behaviour on a 3-token DAT line: a parsable in-range
literal is stored directly as the line's word and the pass continues; a
non-numeric or out-of-range operand panics (`none`). -/
theorem secondPass_dat (labels : List (String × Nat)) (i : Nat)
    (acc : List ThreeDigitNumber) (line : String) (rest : List String)
    (p0 p2 : String) (hsplit : splitWhitespace line = [p0, "DAT", p2]) :
    (∀ v : Int, parseI16 p2 = some v → 0 ≤ v → v ≤ 999 →
      secondPass labels i acc (line :: rest) =
        secondPass labels (i + 1) (⟨v, none⟩ :: acc) rest) ∧
    (parseI16 p2 = none → secondPass labels i acc (line :: rest) = none) ∧
    (∀ v : Int, parseI16 p2 = some v → (v < 0 ∨ 999 < v) →
      secondPass labels i acc (line :: rest) = none) := by
  have hdat : OPCODES.from_str "DAT" = .ok OPCODES.DAT := rfl
  refine ⟨fun v hv h0 h9 => ?_, fun hv => ?_, fun v hv hout => ?_⟩
  · have hnew : ThreeDigitNumber.new v = .ok ⟨v, none⟩ := by
      unfold ThreeDigitNumber.new
      rw [if_pos ⟨h0, h9⟩]
    simp only [secondPass, hsplit, hdat, hv, hnew, unwrapPanic]
  · simp only [secondPass, hsplit, hdat, hv]
  · have hnew : ThreeDigitNumber.new v =
        .error (.OutOfBounds (usizeOfI16 v)) := by
      unfold ThreeDigitNumber.new
      rw [if_neg (by omega)]
    simp only [secondPass, hsplit, hdat, hv, hnew, unwrapPanic]

/-- C7 counterexample: on the single line `A DAT ABC` — a 3-token DAT line
whose third token is not numeric — `assemble` does not return any result:
the Rust code panics on `parse::<i16>().unwrap()`.  The claimed totality
fails. -/
theorem c7_counterexample :
    (Assembler.new false false).assemble ["A DAT ABC"] = none ∧
    ¬ ∃ r, (Assembler.new false false).assemble ["A DAT ABC"] = some r := by
  refine ⟨rfl, ?_⟩
  rintro ⟨r, hr⟩
  rw [show (Assembler.new false false).assemble ["A DAT ABC"] = none
    from rfl] at hr
  exact Option.noConfusion hr

/-- C7 (amended): on a 3-token line whose middle token is DAT, the third
token is parsed as a signed literal integer; when it parses to a value in
`[0,999]` that value is stored directly as the line's mailbox word
(bypassing opcode encoding) and assembly proceeds; but the step is not
total — a non-numeric third token, or a parsed value outside `[0,999]`,
makes `assemble` panic (no word sequence and no typed `AssemblerError` is
returned).  Stated here for a one-line program whose line is already
comment-free and trimmed. -/
theorem c7_dat_totality (a : Assembler) (line p0 p2 : String)
    (hline : rustTrim (stripComment line) = line) (hne : line.data ≠ [])
    (hsplit : splitWhitespace line = [p0, "DAT", p2]) :
    (∀ v : Int, parseI16 p2 = some v → 0 ≤ v → v ≤ 999 →
      a.assemble [line] = some (.ok [⟨v, none⟩])) ∧
    (parseI16 p2 = none → a.assemble [line] = none) ∧
    (∀ v : Int, parseI16 p2 = some v → (v < 0 ∨ 999 < v) →
      a.assemble [line] = none) := by
  have hstrip :
      (List.map (fun l => rustTrim (stripComment l)) [line]).filter
        (fun l => 0 < l.data.length) = [line] := by
    simp only [List.map_cons, List.map_nil, hline, List.filter_cons,
      List.filter_nil, decide_eq_true_eq, List.length_pos]
    rw [if_pos hne]
  have hfp : firstPass [] 0 [line] = .ok [(p0, 0)] := by
    simp only [firstPass, hsplit, labelsInsert]
  have hpre : ∀ r, secondPass [(p0, 0)] 0 [] [line] = r →
      a.assemble [line] = r := by
    intro r hr
    unfold Assembler.assemble
    simp only [hstrip]
    rw [if_neg (by simp), if_neg (by simp), hfp]
    exact hr
  obtain ⟨hd1, hd2, hd3⟩ := secondPass_dat [(p0, 0)] 0 [] line [] p0 p2 hsplit
  refine ⟨fun v hv h0 h9 => ?_, fun hv => ?_, fun v hv hout => ?_⟩
  · exact hpre _ (hd1 v hv h0 h9)
  · exact hpre _ (hd2 hv)
  · exact hpre _ (hd3 v hv hout)

/-- C7 witness: `A DAT 5` assembles to the single word `005`, while
`A DAT -3` — parsable but out of range — panics. -/
theorem c7_witness :
    (Assembler.new false false).assemble ["A DAT 5"] =
      some (.ok [⟨5, none⟩]) ∧
    (Assembler.new false false).assemble ["A DAT -3"] = none := by
  constructor
  · exact (c7_dat_totality (Assembler.new false false) "A DAT 5" "A" "5"
      rfl (by decide) rfl).1 5 (by decide) (by decide) (by decide)
  · exact (c7_dat_totality (Assembler.new false false) "A DAT -3" "A" "-3"
      rfl (by decide) rfl).2.2 (-3) (by decide) (Or.inl (by decide))

/-- C6: the eight-line add-two-numbers program assembles to exactly
`[505, 106, 307, 902, 000, 005, 003, 000]` (labels LOOP=0, FIRST=5,
SECOND=6, RESULT=7), and loading those words into a fresh machine — with
any logger configuration and any cycle budget that does not cut off its 5
cycles — executes to a successful halt with the output slot holding 8. -/
theorem c6_end_to_end (vb dbg qt : Bool) (mc : Nat) (hmc : mc = 0 ∨ 5 < mc)
    (fuel : Nat) (hf : 5 ≤ fuel) :
    (Assembler.new vb dbg).assemble
      ["LOOP LDA FIRST", "ADD SECOND", "STO RESULT", "OUT", "HLT",
       "FIRST DAT 5", "SECOND DAT 3", "RESULT DAT 0"] =
      some (.ok [⟨505, none⟩, ⟨106, none⟩, ⟨307, none⟩, ⟨902, none⟩,
        ⟨0, none⟩, ⟨5, none⟩, ⟨3, none⟩, ⟨0, none⟩]) ∧
    ∃ st', (((LMC.new vb dbg qt mc).load_program
        [⟨505, none⟩, ⟨106, none⟩, ⟨307, none⟩, ⟨902, none⟩,
         ⟨0, none⟩, ⟨5, none⟩, ⟨3, none⟩, ⟨0, none⟩]).2).execute_program
        fuel = .ok st' ∧ st'.out_basket = some ⟨8, none⟩ := by
  refine ⟨rfl, ?_⟩
  obtain ⟨k, rfl⟩ : ∃ k, fuel = k + 5 := ⟨fuel - 5, by omega⟩
  refine ⟨{ (((LMC.new vb dbg qt mc).load_program
      [⟨505, none⟩, ⟨106, none⟩, ⟨307, none⟩, ⟨902, none⟩,
       ⟨0, none⟩, ⟨5, none⟩, ⟨3, none⟩, ⟨0, none⟩]).2) with
      mailboxes := fun j => if j = 7 then ⟨8, none⟩
        else (((LMC.new vb dbg qt mc).load_program
          [⟨505, none⟩, ⟨106, none⟩, ⟨307, none⟩, ⟨902, none⟩,
           ⟨0, none⟩, ⟨5, none⟩, ⟨3, none⟩, ⟨0, none⟩]).2).mailboxes j,
      calculator := ⟨8, none⟩, flag := none, counter := ⟨4, none⟩,
      out_basket := some ⟨8, none⟩ }, ?_, rfl⟩
  rw [LMC.execute_program]
  show LMC.execLoop (k + 4 + 1) _ 0 = _
  rw [LMC.execLoop_next (k + 4)
    (((LMC.new vb dbg qt mc).load_program
      [⟨505, none⟩, ⟨106, none⟩, ⟨307, none⟩, ⟨902, none⟩,
       ⟨0, none⟩, ⟨5, none⟩, ⟨3, none⟩, ⟨0, none⟩]).2)
    { (((LMC.new vb dbg qt mc).load_program
      [⟨505, none⟩, ⟨106, none⟩, ⟨307, none⟩, ⟨902, none⟩,
       ⟨0, none⟩, ⟨5, none⟩, ⟨3, none⟩, ⟨0, none⟩]).2) with
      calculator := ⟨5, none⟩, flag := none, counter := ⟨1, none⟩ }
    0 rfl (by show mc ≠ 0 + 1; rcases hmc with h | h <;> omega)]
  show LMC.execLoop (k + 3 + 1) _ 1 = _
  rw [LMC.execLoop_next (k + 3)
    { (((LMC.new vb dbg qt mc).load_program
      [⟨505, none⟩, ⟨106, none⟩, ⟨307, none⟩, ⟨902, none⟩,
       ⟨0, none⟩, ⟨5, none⟩, ⟨3, none⟩, ⟨0, none⟩]).2) with
      calculator := ⟨5, none⟩, flag := none, counter := ⟨1, none⟩ }
    { (((LMC.new vb dbg qt mc).load_program
      [⟨505, none⟩, ⟨106, none⟩, ⟨307, none⟩, ⟨902, none⟩,
       ⟨0, none⟩, ⟨5, none⟩, ⟨3, none⟩, ⟨0, none⟩]).2) with
      calculator := ⟨8, none⟩, flag := none, counter := ⟨2, none⟩ }
    1 rfl (by show mc ≠ 1 + 1; rcases hmc with h | h <;> omega)]
  show LMC.execLoop (k + 2 + 1) _ 2 = _
  rw [LMC.execLoop_next (k + 2)
    { (((LMC.new vb dbg qt mc).load_program
      [⟨505, none⟩, ⟨106, none⟩, ⟨307, none⟩, ⟨902, none⟩,
       ⟨0, none⟩, ⟨5, none⟩, ⟨3, none⟩, ⟨0, none⟩]).2) with
      calculator := ⟨8, none⟩, flag := none, counter := ⟨2, none⟩ }
    { (((LMC.new vb dbg qt mc).load_program
      [⟨505, none⟩, ⟨106, none⟩, ⟨307, none⟩, ⟨902, none⟩,
       ⟨0, none⟩, ⟨5, none⟩, ⟨3, none⟩, ⟨0, none⟩]).2) with
      mailboxes := fun j => if j = 7 then ⟨8, none⟩
        else (((LMC.new vb dbg qt mc).load_program
          [⟨505, none⟩, ⟨106, none⟩, ⟨307, none⟩, ⟨902, none⟩,
           ⟨0, none⟩, ⟨5, none⟩, ⟨3, none⟩, ⟨0, none⟩]).2).mailboxes j,
      calculator := ⟨8, none⟩, flag := none, counter := ⟨3, none⟩ }
    2 rfl (by show mc ≠ 2 + 1; rcases hmc with h | h <;> omega)]
  show LMC.execLoop (k + 1 + 1) _ 3 = _
  rw [LMC.execLoop_next (k + 1)
    { (((LMC.new vb dbg qt mc).load_program
      [⟨505, none⟩, ⟨106, none⟩, ⟨307, none⟩, ⟨902, none⟩,
       ⟨0, none⟩, ⟨5, none⟩, ⟨3, none⟩, ⟨0, none⟩]).2) with
      mailboxes := fun j => if j = 7 then ⟨8, none⟩
        else (((LMC.new vb dbg qt mc).load_program
          [⟨505, none⟩, ⟨106, none⟩, ⟨307, none⟩, ⟨902, none⟩,
           ⟨0, none⟩, ⟨5, none⟩, ⟨3, none⟩, ⟨0, none⟩]).2).mailboxes j,
      calculator := ⟨8, none⟩, flag := none, counter := ⟨3, none⟩ }
    { (((LMC.new vb dbg qt mc).load_program
      [⟨505, none⟩, ⟨106, none⟩, ⟨307, none⟩, ⟨902, none⟩,
       ⟨0, none⟩, ⟨5, none⟩, ⟨3, none⟩, ⟨0, none⟩]).2) with
      mailboxes := fun j => if j = 7 then ⟨8, none⟩
        else (((LMC.new vb dbg qt mc).load_program
          [⟨505, none⟩, ⟨106, none⟩, ⟨307, none⟩, ⟨902, none⟩,
           ⟨0, none⟩, ⟨5, none⟩, ⟨3, none⟩, ⟨0, none⟩]).2).mailboxes j,
      calculator := ⟨8, none⟩, flag := none, counter := ⟨4, none⟩,
      out_basket := some ⟨8, none⟩ }
    3 rfl (by show mc ≠ 3 + 1; rcases hmc with h | h <;> omega)]
  exact LMC.execLoop_halt k _ _ 4 rfl
    (by show mc ≠ 4 + 1; rcases hmc with h | h <;> omega)

/-- C6 witness: the theorem applied to a quiet machine with the default
cycle budget 1000 and fuel 5. -/
theorem c6_witness :
    (Assembler.new false false).assemble
      ["LOOP LDA FIRST", "ADD SECOND", "STO RESULT", "OUT", "HLT",
       "FIRST DAT 5", "SECOND DAT 3", "RESULT DAT 0"] =
      some (.ok [⟨505, none⟩, ⟨106, none⟩, ⟨307, none⟩, ⟨902, none⟩,
        ⟨0, none⟩, ⟨5, none⟩, ⟨3, none⟩, ⟨0, none⟩]) ∧
    ∃ st', (((LMC.new false false false 1000).load_program
        [⟨505, none⟩, ⟨106, none⟩, ⟨307, none⟩, ⟨902, none⟩,
         ⟨0, none⟩, ⟨5, none⟩, ⟨3, none⟩, ⟨0, none⟩]).2).execute_program 5 =
      .ok st' ∧ st'.out_basket = some ⟨8, none⟩ :=
  c6_end_to_end false false false 1000 (Or.inr (by decide)) 5 (by decide)

/-- `TDNwf` holds for any literal in range. -/
theorem TDNwf_mk (v : Int) (f : Option Flag) (h1 : 0 ≤ v) (h2 : v ≤ 999) :
    TDNwf ⟨v, f⟩ := ⟨h1, h2⟩

/-- A successfully constructed `ThreeDigitNumber` is in range. -/
theorem ThreeDigitNumber.new_ok_wf (v : Int) (n : ThreeDigitNumber)
    (h : ThreeDigitNumber.new v = .ok n) : TDNwf n := by
  unfold ThreeDigitNumber.new at h
  by_cases hc : 0 ≤ v ∧ v ≤ 999
  · rw [if_pos hc] at h
    cases h
    exact ⟨hc.1, hc.2⟩
  · rw [if_neg hc] at h
    exact Except.noConfusion h

/-- The decoded operand `(value % 100) as usize` of an in-range machine
word is at most 99. -/
theorem decode_operand_le (v : Int) (h0 : 0 ≤ v) (_h9 : v ≤ 999) :
    usizeOfI16 (Int.tmod v 100) ≤ 99 := by
  rw [Int.tmod_eq_emod h0 (by norm_num)]
  unfold usizeOfI16
  omega

/-- Reading a mailbox at an in-range index on a well-formed machine
succeeds and yields an in-range word. -/
theorem LMC.boxRead_wf (st : LMC) (hwf : LMCwf st) (i : Nat) (hi : i ≤ 99) :
    boxRead st.mailboxes i = some (st.mailboxes i) ∧ TDNwf (st.mailboxes i) := by
  constructor
  · unfold boxRead
    rw [if_pos (by omega)]
  · exact hwf.1 i (by omega)

/-- `stepOfMethod` sends exactly `panicked` to `panicked`. -/
theorem stepOfMethod_panic (m : MethodOut) :
    stepOfMethod m = .panicked ↔ m = .panicked := by
  cases m <;> simp [stepOfMethod]

/-- `stepOfMethod` sends exactly `ok` to `next`. -/
theorem stepOfMethod_next (m : MethodOut) (st' : LMC) :
    stepOfMethod m = .next st' ↔ m = .ok st' := by
  cases m <;> simp [stepOfMethod]

/-- ADD with an in-range operand on a well-formed machine succeeds and
preserves well-formedness. -/
theorem LMC.add_safe (st : LMC) (op : Nat) (hop : op ≤ 99) (hwf : LMCwf st) :
    ∃ st', st.add op = .ok st' ∧ LMCwf st' := by
  obtain ⟨hread, hbox⟩ := LMC.boxRead_wf st hwf op hop
  have hadd := ThreeDigitNumber.add_eq st.calculator (st.mailboxes op)
    hwf.2.1 hbox
  unfold LMC.add
  simp only [hread, hadd, unwrapPanic, LMC.incCounter_eq]
  refine ⟨_, rfl, hwf.1,
    TDNwf_mk _ _ (by omega) (by omega),
    show (st.counter.value + 1) % 100 ≤ 99 by omega, hwf.2.2.2⟩

/-- SUB with an in-range operand on a well-formed machine succeeds and
preserves well-formedness. -/
theorem LMC.sub_safe (st : LMC) (op : Nat) (hop : op ≤ 99) (hwf : LMCwf st) :
    ∃ st', st.sub op = .ok st' ∧ LMCwf st' := by
  obtain ⟨hread, hbox⟩ := LMC.boxRead_wf st hwf op hop
  have hsub := ThreeDigitNumber.sub_eq st.calculator (st.mailboxes op)
    hwf.2.1 hbox
  unfold LMC.sub
  simp only [hread, hsub, unwrapPanic, LMC.incCounter_eq]
  refine ⟨_, rfl, hwf.1,
    TDNwf_mk _ _ (by omega) (by omega),
    show (st.counter.value + 1) % 100 ≤ 99 by omega, hwf.2.2.2⟩

/-- STO with an in-range operand on a well-formed machine succeeds and
preserves well-formedness. -/
theorem LMC.sto_safe (st : LMC) (op : Nat) (hop : op ≤ 99) (hwf : LMCwf st) :
    ∃ st', st.sto op = .ok st' ∧ LMCwf st' := by
  have hwrite : boxWrite st.mailboxes op st.calculator =
      some (fun j => if j = op then st.calculator else st.mailboxes j) := by
    unfold boxWrite
    rw [if_pos (by omega)]
  unfold LMC.sto
  simp only [hwrite, LMC.incCounter_eq]
  refine ⟨_, rfl, ?_, hwf.2.1,
    show (st.counter.value + 1) % 100 ≤ 99 by omega, hwf.2.2.2⟩
  intro i hi
  show TDNwf (if i = op then st.calculator else st.mailboxes i)
  by_cases hio : i = op
  · rw [if_pos hio]
    exact hwf.2.1
  · rw [if_neg hio]
    exact hwf.1 i hi

/-- LDA with an in-range operand on a well-formed machine succeeds and
preserves well-formedness. -/
theorem LMC.lda_safe (st : LMC) (op : Nat) (hop : op ≤ 99) (hwf : LMCwf st) :
    ∃ st', st.lda op = .ok st' ∧ LMCwf st' := by
  obtain ⟨hread, hbox⟩ := LMC.boxRead_wf st hwf op hop
  unfold LMC.lda
  simp only [hread, LMC.incCounter_eq]
  refine ⟨_, rfl, hwf.1, hbox,
    show (st.counter.value + 1) % 100 ≤ 99 by omega, hwf.2.2.2⟩

/-- BR with an in-range operand always succeeds (no panic): the
`TwoDigitNumber::new(operand as u8).unwrap()` cannot fail. -/
theorem LMC.br_eq (st : LMC) (op : Nat) (hop : op ≤ 99) :
    st.br op = some { st with counter := ⟨op, none⟩ } := by
  unfold LMC.br TwoDigitNumber.new
  rw [Nat.mod_eq_of_lt (show op < 256 by omega), if_pos hop]
  rfl

/-- BRZ with an in-range operand on a well-formed machine succeeds and
preserves well-formedness. -/
theorem LMC.brz_safe (st : LMC) (op : Nat) (hop : op ≤ 99) (hwf : LMCwf st) :
    ∃ st', st.brz op = .ok st' ∧ LMCwf st' := by
  unfold LMC.brz TwoDigitNumber.new
  by_cases hz : st.calculator.value = 0
  · rw [if_pos hz, Nat.mod_eq_of_lt (show op < 256 by omega), if_pos hop]
    exact ⟨_, rfl, hwf.1, hwf.2.1, hop, hwf.2.2.2⟩
  · rw [if_neg hz, LMC.incCounter_eq]
    exact ⟨_, rfl, hwf.1, hwf.2.1,
      show (st.counter.value + 1) % 100 ≤ 99 by omega, hwf.2.2.2⟩

/-- BRP with an in-range operand on a well-formed machine succeeds and
preserves well-formedness. -/
theorem LMC.brp_safe (st : LMC) (op : Nat) (hop : op ≤ 99) (hwf : LMCwf st) :
    ∃ st', st.brp op = .ok st' ∧ LMCwf st' := by
  rw [LMC.brp_eq st op hop]
  refine ⟨_, rfl, hwf.1, hwf.2.1, ?_, hwf.2.2.2⟩
  show (if (st.flag = some Flag.NEG) then _ else _ : TwoDigitNumber).value ≤ 99
  by_cases hf : st.flag = some Flag.NEG
  · rw [if_pos hf]
    show (st.counter.value + 1) % 100 ≤ 99
    omega
  · rw [if_neg hf]
    exact hop

/-- IN on a well-formed machine never panics, and when it succeeds the
machine stays well-formed (the loaded value went through a validating
constructor or was already in the well-formed in-basket). -/
theorem LMC.read_input_safe (st : LMC) (hwf : LMCwf st) :
    st.read_input ≠ .panicked ∧
    (∀ st', st.read_input = .ok st' → LMCwf st') := by
  unfold LMC.read_input LMC.read_blocking
  rcases hb : st.in_basket with - | ⟨n, rest⟩
  · rcases hs : st.stdin_lines with - | ⟨line, srest⟩
    · refine ⟨fun h => ?_, fun st' h => ?_⟩ <;> simp at h
    · rcases hp : parseI16 (rustTrim line) with - | v
      · refine ⟨fun h => ?_, fun st' h => ?_⟩ <;> simp [hp] at h
      · rcases hn : ThreeDigitNumber.new v with e | num
        · refine ⟨fun h => ?_, fun st' h => ?_⟩ <;> simp [hp, hn] at h
        · have hnum : TDNwf num := ThreeDigitNumber.new_ok_wf v num hn
          refine ⟨fun h => ?_, fun st' h => ?_⟩ <;>
            simp only [hp, hn, LMC.incCounter_eq] at h
          · simp at h
          · rw [show st' = _ from (MethodOut.ok.injEq _ _).mp h.symm]
            exact ⟨hwf.1, hnum,
              show (st.counter.value + 1) % 100 ≤ 99 by omega,
              fun m hm => absurd hm (List.not_mem_nil m)⟩
  · have hn : TDNwf n := hwf.2.2.2 n (by rw [hb]; exact List.mem_cons_self n rest)
    have hrest : ∀ m ∈ rest, TDNwf m := fun m hm =>
      hwf.2.2.2 m (by rw [hb]; exact List.mem_cons_of_mem n hm)
    refine ⟨fun h => ?_, fun st' h => ?_⟩ <;>
      simp only [LMC.incCounter_eq] at h
    · simp at h
    · rw [show st' = _ from (MethodOut.ok.injEq _ _).mp h.symm]
      exact ⟨hwf.1, hn,
        show (st.counter.value + 1) % 100 ≤ 99 by omega, hrest⟩

/-- OUT on a well-formed machine succeeds and preserves well-formedness. -/
theorem LMC.write_output_safe (st : LMC) (hwf : LMCwf st) :
    ∃ st', st.write_output = .ok st' ∧ LMCwf st' := by
  unfold LMC.write_output
  simp only [LMC.incCounter_eq]
  exact ⟨_, rfl, hwf.1, hwf.2.1,
    show (st.counter.value + 1) % 100 ≤ 99 by omega, hwf.2.2.2⟩

/-- A freshly constructed machine is well-formed, and loading any list of
in-range words keeps it so (whether or not the load is accepted). -/
theorem LMC.load_wf (vb dbg qt : Bool) (mcyc : Nat)
    (words : List ThreeDigitNumber) (hwords : ∀ w ∈ words, TDNwf w) :
    LMCwf (((LMC.new vb dbg qt mcyc).load_program words).2) := by
  have hnew : LMCwf (LMC.new vb dbg qt mcyc) := by
    refine ⟨fun i _ => ?_, ?_, ?_, ?_⟩
    · show TDNwf ⟨0, none⟩
      exact ⟨by decide, by decide⟩
    · show TDNwf ⟨0, none⟩
      exact ⟨by decide, by decide⟩
    · show (0 : Nat) ≤ 99
      decide
    · intro n hn
      exact absurd hn (List.not_mem_nil n)
  unfold LMC.load_program
  by_cases hlen : words.length > 100
  · rw [if_pos hlen]
    exact hnew
  · rw [if_neg hlen]
    refine ⟨?_, hnew.2.1, hnew.2.2.1, hnew.2.2.2⟩
    intro i hi
    show TDNwf (if h : i < words.length then words.get ⟨i, h⟩
      else (LMC.new vb dbg qt mcyc).mailboxes i)
    by_cases hiw : i < words.length
    · rw [dif_pos hiw]
      exact hwords _ (List.get_mem words i hiw)
    · rw [dif_neg hiw]
      exact hnew.1 i hi

/-- A `next` outcome with a well-formed state is safe. -/
theorem stepSafe_next (st : LMC) (h : LMCwf st) : StepSafe (.next st) :=
  ⟨fun h' => StepResult.noConfusion h',
   fun st' h' => by cases h'; exact h,
   fun _ h' => StepResult.noConfusion h'⟩

/-- A `halt` outcome with a well-formed state is safe. -/
theorem stepSafe_halt (st : LMC) (h : LMCwf st) : StepSafe (.halt st) :=
  ⟨fun h' => StepResult.noConfusion h',
   fun _ h' => StepResult.noConfusion h',
   fun st' h' => by cases h'; exact h⟩

/-- An `err` outcome is safe (it is terminal, not a panic). -/
theorem stepSafe_err (e : LMCError) : StepSafe (.err e) :=
  ⟨fun h' => StepResult.noConfusion h',
   fun _ h' => StepResult.noConfusion h',
   fun _ h' => StepResult.noConfusion h'⟩

/-- Lifting a non-panicking, well-formedness-preserving instruction method
into the loop yields a safe outcome. -/
theorem stepSafe_method (m : MethodOut) (h1 : m ≠ .panicked)
    (h2 : ∀ s', m = .ok s' → LMCwf s') : StepSafe (stepOfMethod m) := by
  cases m with
  | ok s => exact stepSafe_next s (h2 s rfl)
  | err e => exact stepSafe_err e
  | panicked => exact absurd rfl h1
  | blocked =>
    exact ⟨fun h' => StepResult.noConfusion h',
      fun st' h' => StepResult.noConfusion h',
      fun st' h' => StepResult.noConfusion h'⟩

/-- Lifting a method known to succeed into a well-formed state. -/
theorem stepSafe_of_ok (m : MethodOut) (s' : LMC) (hm : m = .ok s')
    (hws : LMCwf s') : StepSafe (stepOfMethod m) := by
  cases hm
  exact stepSafe_next s' hws

set_option maxHeartbeats 3200000 in
/-- C10: on any well-formed machine state — in particular any state
reached from a fresh machine with a loaded program, as the final conjunct
and the preservation conjuncts show — the fetched instruction decodes to an
operand in `[0,99]`, so `TwoDigitNumber::new(operand)` succeeds, every
mailbox access of the dispatched instruction is in bounds, and one loop
body never panics and preserves well-formedness. -/
theorem c10_decode_safety (st : LMC) (hwf : LMCwf st) :
    (boxRead st.mailboxes st.counter.value =
        some (st.mailboxes st.counter.value) ∧
      usizeOfI16 (Int.tmod (st.mailboxes st.counter.value).value 100) ≤ 99 ∧
      TwoDigitNumber.new
          (usizeOfI16 (Int.tmod (st.mailboxes st.counter.value).value 100)) =
        .ok ⟨usizeOfI16 (Int.tmod (st.mailboxes st.counter.value).value 100),
          none⟩) ∧
    st.fetchExec ≠ .panicked ∧
    (∀ st', st.fetchExec = .next st' → LMCwf st') ∧
    (∀ st', st.fetchExec = .halt st' → LMCwf st') ∧
    (∀ (vb dbg qt : Bool) (mcyc : Nat) (words : List ThreeDigitNumber),
      (∀ w ∈ words, TDNwf w) →
      LMCwf (((LMC.new vb dbg qt mcyc).load_program words).2)) := by
  obtain ⟨hread, hinstr⟩ := LMC.boxRead_wf st hwf st.counter.value hwf.2.2.1
  have hop : usizeOfI16
      (Int.tmod (st.mailboxes st.counter.value).value 100) ≤ 99 :=
    decode_operand_le _ hinstr.1 hinstr.2
  have hnewC : TwoDigitNumber.new
      (usizeOfI16 (Int.tmod (st.mailboxes st.counter.value).value 100)) =
      .ok ⟨usizeOfI16 (Int.tmod (st.mailboxes st.counter.value).value 100),
        none⟩ := by
    unfold TwoDigitNumber.new
    rw [if_pos hop]
  have hfe : st.fetchExec =
      (if Int.tdiv (st.mailboxes st.counter.value).value 100 = 1 then
        stepOfMethod (st.add
          (usizeOfI16 (Int.tmod (st.mailboxes st.counter.value).value 100)))
      else if Int.tdiv (st.mailboxes st.counter.value).value 100 = 2 then
        stepOfMethod (st.sub
          (usizeOfI16 (Int.tmod (st.mailboxes st.counter.value).value 100)))
      else if Int.tdiv (st.mailboxes st.counter.value).value 100 = 3 then
        stepOfMethod (st.sto
          (usizeOfI16 (Int.tmod (st.mailboxes st.counter.value).value 100)))
      else if Int.tdiv (st.mailboxes st.counter.value).value 100 = 5 then
        stepOfMethod (st.lda
          (usizeOfI16 (Int.tmod (st.mailboxes st.counter.value).value 100)))
      else if Int.tdiv (st.mailboxes st.counter.value).value 100 = 6 then
        match st.br
          (usizeOfI16 (Int.tmod (st.mailboxes st.counter.value).value 100)) with
        | none => .panicked
        | some st' => .next st'
      else if Int.tdiv (st.mailboxes st.counter.value).value 100 = 7 then
        stepOfMethod (st.brz
          (usizeOfI16 (Int.tmod (st.mailboxes st.counter.value).value 100)))
      else if Int.tdiv (st.mailboxes st.counter.value).value 100 = 8 then
        stepOfMethod (st.brp
          (usizeOfI16 (Int.tmod (st.mailboxes st.counter.value).value 100)))
      else if Int.tdiv (st.mailboxes st.counter.value).value 100 = 9 then
        if usizeOfI16 (Int.tmod (st.mailboxes st.counter.value).value 100) = 1
        then stepOfMethod st.read_input
        else if usizeOfI16
            (Int.tmod (st.mailboxes st.counter.value).value 100) = 2 then
          stepOfMethod st.write_output
        else .err (.InvalidOpcode ("9" ++
          fmtPad 2 (Int.tdiv (st.mailboxes st.counter.value).value 100)))
      else if Int.tdiv (st.mailboxes st.counter.value).value 100 = 0 then
        .halt st
      else .err (.InvalidOpcode
        (fmtPad 3 (Int.tdiv (st.mailboxes st.counter.value).value 100)))) := by
    unfold LMC.fetchExec
    rw [hread]
  have hsafe : StepSafe st.fetchExec := by
    rw [hfe]
    split_ifs
    · obtain ⟨s', hs', hws⟩ := LMC.add_safe st _ hop hwf
      exact stepSafe_of_ok _ s' hs' hws
    · obtain ⟨s', hs', hws⟩ := LMC.sub_safe st _ hop hwf
      exact stepSafe_of_ok _ s' hs' hws
    · obtain ⟨s', hs', hws⟩ := LMC.sto_safe st _ hop hwf
      exact stepSafe_of_ok _ s' hs' hws
    · obtain ⟨s', hs', hws⟩ := LMC.lda_safe st _ hop hwf
      exact stepSafe_of_ok _ s' hs' hws
    · rw [LMC.br_eq st _ hop]
      exact stepSafe_next _ ⟨hwf.1, hwf.2.1, hop, hwf.2.2.2⟩
    · obtain ⟨s', hs', hws⟩ := LMC.brz_safe st _ hop hwf
      exact stepSafe_of_ok _ s' hs' hws
    · obtain ⟨s', hs', hws⟩ := LMC.brp_safe st _ hop hwf
      exact stepSafe_of_ok _ s' hs' hws
    · obtain ⟨hr1, hr2⟩ := LMC.read_input_safe st hwf
      exact stepSafe_method _ hr1 hr2
    · obtain ⟨s', hs', hws⟩ := LMC.write_output_safe st hwf
      exact stepSafe_of_ok _ s' hs' hws
    · exact stepSafe_err _
    · exact stepSafe_halt st hwf
    · exact stepSafe_err _
  exact ⟨⟨hread, hop, hnewC⟩, hsafe.1, hsafe.2.1, hsafe.2.2,
    fun vb dbg qt mcyc words hw => LMC.load_wf vb dbg qt mcyc words hw⟩

/-- C10 witness: on a fresh (well-formed) machine a loop body does not
panic. -/
theorem c10_witness :
    LMC.fetchExec (LMC.new false false false 0) ≠ .panicked := by
  have hwf : LMCwf (LMC.new false false false 0) := by
    refine ⟨fun i _ => ?_, ?_, ?_, ?_⟩
    · show TDNwf ⟨0, none⟩
      exact ⟨by decide, by decide⟩
    · show TDNwf ⟨0, none⟩
      exact ⟨by decide, by decide⟩
    · show (0 : Nat) ≤ 99
      decide
    · intro n hn
      exact absurd hn (List.not_mem_nil n)
  exact (c10_decode_safety (LMC.new false false false 0) hwf).2.1

end Lmc
